import Mathlib

/-!
Shallow embedding of the live-plot ingestion pipeline in `hey_plot.py`.

Conventions of the embedding:
* Python `float` values are idealized as `PyF`: an exact rational for finite
  values, plus dedicated constructors for the two infinities and NaN.
  IEEE-754 rounding and overflow-to-infinity are not modelled; the literals
  `0.1` and `1e-6` of the source become the exact rationals `1/10` and
  `1/1000000`.  Comparisons and arithmetic on `PyF` mirror the Python float
  comparison rules (NaN compares false to everything, including itself).
* Python `str.strip` is modelled over the ASCII whitespace characters; the
  digits accepted by `float()` are the ASCII digits (Unicode digit variants
  and Unicode whitespace are not modelled).
* A Python dict built by a comprehension over `zip(header, row)` is modelled
  as the zipped association list together with `dictGet`, whose fold mirrors
  insertion order with later keys overwriting earlier ones.
* The producer thread and the `Queue` hand-off are modelled by the list of
  records the producer pushes, in push (FIFO) order; the render tick
  (`update`) drains that list from the front.
-/

set_option autoImplicit false

unseal Rat.mul Rat.inv Rat.add Rat.sub

namespace HeyPlot

/-- Idealized Python float: exact rational, infinities, or NaN. -/
inductive PyF where
  | finite (q : ℚ)
  | pinf
  | ninf
  | nan
  deriving DecidableEq, Repr

/-- A finite value test (Python `math.isfinite`); the source never calls it,
it is used to state claims about finiteness. -/
def PyF.isFinite : PyF → Bool
  | .finite _ => true
  | _ => false

/-- Python `<` on floats: NaN compares false to everything. -/
def pyLt : PyF → PyF → Bool
  | .finite a, .finite b => decide (a < b)
  | .finite _, .pinf => true
  | .ninf, .finite _ => true
  | .ninf, .pinf => true
  | _, _ => false

/-- Python `==` on floats: NaN is not equal to anything, including itself. -/
def pyBeq : PyF → PyF → Bool
  | .finite a, .finite b => decide (a = b)
  | .pinf, .pinf => true
  | .ninf, .ninf => true
  | _, _ => false

/-- Adding a finite rational constant to a float (`v + c`); the infinities
absorb the addition and NaN propagates. -/
def pyAddQ : PyF → ℚ → PyF
  | .finite a, c => .finite (a + c)
  | v, _ => v

/-- Python float subtraction, used only to state window-height claims.
`inf - inf` is NaN. -/
def pySub : PyF → PyF → PyF
  | .finite a, .finite b => .finite (a - b)
  | .nan, _ => .nan
  | _, .nan => .nan
  | .pinf, .pinf => .nan
  | .ninf, .ninf => .nan
  | .pinf, _ => .pinf
  | .ninf, _ => .ninf
  | .finite _, .pinf => .ninf
  | .finite _, .ninf => .pinf

/-- ASCII whitespace recognized by Python `str.strip()`. -/
def pyWs (c : Char) : Bool :=
  c == ' ' || c == '\t' || c == '\n' || c == '\r' || c == '\x0b' || c == '\x0c'

/-- Strip leading and trailing whitespace from a character list. -/
def pyStripList (cs : List Char) : List Char :=
  ((cs.dropWhile pyWs).reverse.dropWhile pyWs).reverse

/-- Python `str.strip()` (ASCII whitespace). -/
def pyStrip (s : String) : String :=
  String.mk (pyStripList s.toList)

/-- Helper for Python `str.split(",")`: accumulate the current field
(reversed) while walking the remaining characters. -/
def splitCommaAux : List Char → List Char → List String
  | acc, [] => [String.mk acc.reverse]
  | acc, ',' :: r => String.mk acc.reverse :: splitCommaAux [] r
  | acc, c :: r => splitCommaAux (c :: acc) r

/-- Python `line.split(",")`: split on every comma, keeping empty fields. -/
def pySplitComma (s : String) : List String :=
  splitCommaAux [] s.toList

/-- States of the CPython `csv` reader automaton (default dialect). -/
inductive CsvSt where
  | startField
  | inField
  | inQuoted
  | quoteInQuoted
  deriving DecidableEq, Repr

/-- One step of the CPython `csv.reader` field automaton for the default
dialect: delimiter `,`, quote `"`, doublequote on, strict off.  `field` holds
the current field reversed; at end of data the current field is saved. -/
def csvAux : CsvSt → List Char → List String → List Char → List String
  | _, field, acc, [] => acc ++ [String.mk field.reverse]
  | .startField, _, acc, ',' :: r => csvAux .startField [] (acc ++ [("")]) r
  | .startField, _, acc, '"' :: r => csvAux .inQuoted [] acc r
  | .startField, _, acc, c :: r => csvAux .inField [c] acc r
  | .inField, field, acc, ',' :: r => csvAux .startField [] (acc ++ [String.mk field.reverse]) r
  | .inField, field, acc, c :: r => csvAux .inField (c :: field) acc r
  | .inQuoted, field, acc, '"' :: r => csvAux .quoteInQuoted field acc r
  | .inQuoted, field, acc, c :: r => csvAux .inQuoted (c :: field) acc r
  | .quoteInQuoted, field, acc, '"' :: r => csvAux .inQuoted ('"' :: field) acc r
  | .quoteInQuoted, field, acc, ',' :: r => csvAux .startField [] (acc ++ [String.mk field.reverse]) r
  | .quoteInQuoted, field, acc, c :: r => csvAux .inField (c :: field) acc r

/-- Model of `next(csv.reader([line]))` for a non-empty single line (the callers only
pass stripped non-blank lines, which yield exactly one row). -/
def csvParse (s : String) : List String :=
  match s.toList with
  | [] => []
  | cs => csvAux .startField [] [] cs

/-- Optional leading sign; returns (isNegative, rest). -/
def parseSign : List Char → Bool × List Char
  | '+' :: r => (false, r)
  | '-' :: r => (true, r)
  | cs => (false, cs)

/-- A run of ASCII digits with PEP-515 underscores (an underscore must sit
between two digits).  Returns (accumulated value, digit count, rest);
a malformed underscore is left unconsumed so the whole parse fails on the
leftover. -/
def digRunAux : ℕ → ℕ → List Char → ℕ × ℕ × List Char
  | v, n, [] => (v, n, [])
  | v, n, c :: rest =>
    if c.isDigit then digRunAux (10 * v + (c.toNat - 48)) (n + 1) rest
    else if c = '_' then
      match rest with
      | d :: rest2 =>
        if d.isDigit then digRunAux (10 * v + (d.toNat - 48)) (n + 1) rest2
        else (v, n, c :: rest)
      | [] => (v, n, c :: rest)
    else (v, n, c :: rest)

/-- A digit run that must start with a digit. -/
def digRun (cs : List Char) : Option (ℕ × ℕ × List Char) :=
  match cs with
  | c :: _ => if c.isDigit then some (digRunAux 0 0 cs) else none
  | [] => none

/-- Python `float(s)` for strings: strip whitespace, optional sign, then
either an `inf`/`infinity`/`nan` spelling (case-insensitive) or a decimal
literal with optional fraction and exponent.  Returns `none` exactly when
CPython raises `ValueError`.  The numeric value is kept as an exact
rational. -/
def pyFloatParse (s : String) : Option PyF :=
  let cs0 := pyStripList s.toList
  let sgn := parseSign cs0
  let neg := sgn.1
  let cs1 := sgn.2
  let low := cs1.map Char.toLower
  if low = ("inf").toList ∨ low = ("infinity").toList then
    some (if neg then PyF.ninf else PyF.pinf)
  else if low = ("nan").toList then
    some PyF.nan
  else
    let ipt := match digRun cs1 with
      | some t => t
      | none => (0, 0, cs1)
    let fpt := match ipt.2.2 with
      | '.' :: rest =>
        (match digRun rest with
         | some t => t
         | none => (0, 0, rest))
      | _ => (0, 0, ipt.2.2)
    if ipt.2.1 + fpt.2.1 = 0 then none
    else
      let ept : (Bool × ℕ) × List Char := match fpt.2.2 with
        | e :: rest =>
          if e.toLower = 'e' then
            (let esgn := parseSign rest
             match digRun esgn.2 with
             | some t => ((esgn.1, t.1), t.2.2)
             | none => ((false, 0), fpt.2.2))
          else ((false, 0), fpt.2.2)
        | [] => ((false, 0), [])
      if ept.2 = [] then
        let mag : ℚ := ((ipt.1 : ℚ) * (10 : ℚ) ^ fpt.2.1 + (fpt.1 : ℚ)) / (10 : ℚ) ^ fpt.2.1
        let val : ℚ := if ept.1.1 then mag / (10 : ℚ) ^ ept.1.2 else mag * (10 : ℚ) ^ ept.1.2
        some (PyF.finite (if neg then -val else val))
      else none

/-- The source's `try_float`: `float(s)` with every exception mapped to
`None`; the argument is the result of `rec.get(...)`, so it may be absent
(`float(None)` raises `TypeError`, hence `none`). -/
def try_float (s : Option String) : Option PyF :=
  match s with
  | none => none
  | some v => pyFloatParse v

/-- A Record: the association list `zip(header, row)` from which the Python
dict comprehension `{h: v for h, v in zip(header, row)}` is built. -/
abbrev Record := List (String × String)

/-- Lookup in the dict built from an association list by insertion with
overwrite: the fold keeps the value of the latest matching key, exactly as
repeated `d[h] = v` assignments do. -/
def dictGet (ps : Record) (k : String) : Option String :=
  ps.foldl (fun acc p => if p.1 == k then some p.2 else acc) none

/-- Producer-side state: the header (once established) and the records
pushed to the queue so far, in push order. -/
structure ProdState where
  header : Option (List String)
  records : List Record
  deriving DecidableEq, Repr

/-- Processing of one raw line by either producer (`stream_lines_from_stdin`
lines 43-59, and the identical per-line logic of `tail_file`): strip, skip
blanks, establish the header from the first non-blank line, then decode with
`csv.reader` and enqueue only when the field count matches the header
length. -/
def processLine (st : ProdState) (raw : String) : ProdState :=
  let line := pyStrip raw
  if line = "" then st
  else
    match st.header with
    | none => { st with header := some ((pySplitComma line).map pyStrip) }
    | some hdr =>
      let row := csvParse line
      if row.length = hdr.length then { st with records := st.records ++ [hdr.zip row] }
      else st

/-- The stdin producer: fold `processLine` over the stream's lines. -/
def stream_lines_from_stdin (lines : List String) : ProdState :=
  lines.foldl processLine { header := none, records := [] }

/-- Configuration the render loop consumes: the X and Y column names. -/
structure Cfg where
  x : String
  y : String
  deriving DecidableEq, Repr

/-- Consumer-side state: the three parallel series, the line artist data and
axis bounds last pushed to the rendering surface, and the title status. -/
structure PlotState where
  xs : List PyF
  ys : List PyF
  status_codes : List (Option String)
  line_data : Option (List PyF × List PyF)
  xlim : Option (PyF × PyF)
  ylim : Option (PyF × PyF)
  title_status : Option (Option String)
  deriving DecidableEq, Repr

/-- The initial (empty) consumer state. -/
def emptyState : PlotState :=
  { xs := [], ys := [], status_codes := [], line_data := none,
    xlim := none, ylim := none, title_status := none }

/-- Field extraction for one drained record (`update`, lines 140-146): look
up the configured X and Y columns and the `status-code` column, and admit
the point only when both axis values convert. -/
def admitPoint (cfg : Cfg) (rec : Record) : Option (PyF × PyF × Option String) :=
  match try_float (dictGet rec cfg.x), try_float (dictGet rec cfg.y) with
  | some xf, some yf => some (xf, yf, dictGet rec ("status-code"))
  | _, _ => none

/-- The three appends of one admitted point (`update` lines 147-149). -/
def appendPoint (st : PlotState) (p : PyF × PyF × Option String) : PlotState :=
  { st with
      xs := st.xs ++ [p.1],
      ys := st.ys ++ [p.2.1],
      status_codes := st.status_codes ++ [p.2.2] }

/-- The drain loop of `update` (lines 135-150): pop each queued record in
FIFO order, append admitted points to the three series, and remember whether
any point was admitted this tick. -/
def drainFold (cfg : Cfg) : List Record → PlotState × Bool → PlotState × Bool
  | [], acc => acc
  | r :: rs, acc =>
    drainFold cfg rs
      (match admitPoint cfg r with
       | none => acc
       | some p => (appendPoint acc.1 p, true))

/-- Python `min(l)` for a non-empty list given as head and tail: keep the
current minimum unless the next item compares strictly below it. -/
def pyMinFold (v : PyF) (t : List PyF) : PyF :=
  t.foldl (fun m w => if pyLt w m then w else m) v

/-- Python `max(l)` for a non-empty list given as head and tail. -/
def pyMaxFold (v : PyF) (t : List PyF) : PyF :=
  t.foldl (fun m w => if pyLt m w then w else m) v

/-- The X bounds of `update` line 154: `(min(xs), max(xs))`, except that a
single-point buffer widens the upper bound by `1e-6`. -/
def xBounds : List PyF → Option (PyF × PyF)
  | [] => none
  | v :: t =>
    some (pyMinFold v t,
          if t.isEmpty then pyAddQ (pyMaxFold v t) (1 / 1000000 : ℚ) else pyMaxFold v t)

/-- The Y bounds of `update` lines 155-160: `(min(ys), max(ys))`, widened by
`0.1` on each side when the two ends compare equal under Python `==`. -/
def yBounds : List PyF → Option (PyF × PyF)
  | [] => none
  | v :: t =>
    let ymin := pyMinFold v t
    let ymax := pyMaxFold v t
    if pyBeq ymin ymax then some (pyAddQ ymin (-(1 / 10 : ℚ)), pyAddQ ymax (1 / 10 : ℚ))
    else some (ymin, ymax)

/-- One render tick (`update`, lines 133-164): drain the queue completely;
if at least one point was admitted, push the series to the line artist, set
the axis bounds when both series are non-empty, and show the last status in
the title when one exists; otherwise leave every consumer-visible effect
untouched.  The boolean records whether the tick redrew. -/
def update (cfg : Cfg) (recs : List Record) (st : PlotState) : PlotState × Bool :=
  let res := drainFold cfg recs (st, false)
  if res.2 then
    ({ res.1 with
        line_data := some (res.1.xs, res.1.ys),
        xlim := if res.1.xs.isEmpty || res.1.ys.isEmpty then res.1.xlim else xBounds res.1.xs,
        ylim := if res.1.xs.isEmpty || res.1.ys.isEmpty then res.1.ylim else yBounds res.1.ys,
        title_status := if res.1.status_codes.isEmpty then res.1.title_status
                        else res.1.status_codes.getLast? }, true)
  else (res.1, false)

/-- End-to-end pipeline on one source: the stdin producer fills the queue,
then a render tick drains it into an empty consumer state. -/
def runPipeline (lines : List String) (cfg : Cfg) : PlotState :=
  (update cfg (stream_lines_from_stdin lines).records emptyState).1

/-- The admitted points of the whole pipeline, in source-line order. -/
def pipelinePoints (lines : List String) (cfg : Cfg) : List (PyF × PyF × Option String) :=
  ((stream_lines_from_stdin lines).records).filterMap (admitPoint cfg)

/-- The shared column configuration used by the concrete runs below. -/
def cfg0 : Cfg := { x := "x", y := "y" }

/-- Model of `f.readline()` from a character position: everything up to and including
the first newline, or all remaining characters when no newline follows
(CPython returns the unterminated tail as-is at end of file). -/
def readlineL : List Char → List Char
  | [] => []
  | '\n' :: _ => ['\n']
  | c :: r => c :: readlineL r

/-- One iteration of the Following loop of `tail_file` (lines 81-97): record
the position, read a line; on an empty read sleep and seek back (position
unchanged, third component true); otherwise process the line and advance the
position by the characters consumed. -/
def followStep (st : ProdState) (content : List Char) (pos : ℕ) : ℕ × ProdState × Bool :=
  let line := readlineL (content.drop pos)
  if line.isEmpty then (pos, st, true)
  else (pos + line.length, processLine st (String.mk line), false)

/-- Split file content into the successive chunks `f.readline()` yields: the
newline-terminated lines followed by the unterminated tail, if any. -/
def splitNL : List Char → List Char → List String
  | acc, [] => if acc.isEmpty then [] else [String.mk acc.reverse]
  | acc, '\n' :: r => String.mk (acc.reverse ++ ['\n']) :: splitNL [] r
  | acc, c :: r => splitNL (c :: acc) r

/-- The replay phase of `tail_file` (lines 66-79): read every available line
of the existing content and process it. -/
def replayState (content : String) : ProdState :=
  (splitNL [] content.toList).foldl processLine { header := none, records := [] }

/-- Model of `open(path, "r")` inside `tail_file` (line 64) against a model
filesystem: a missing or unreadable file raises `FileNotFoundError`. -/
def tail_file_open (fs : String → Option String) (path : String) : Except String String :=
  match fs path with
  | none => Except.error ("FileNotFoundError")
  | some content => Except.ok content

/-- Observable outcome of `main` in the `--file` branch. -/
structure MainRun where
  producerThreadStarted : Bool
  abortedBeforeThreadStart : Bool
  renderLoopRuns : Bool
  producerOpen : Except String String
  queueFromProducer : List Record

/-- Model of `main` with a file configured (lines 105-114, 166-167): the producer
thread is created and started before any file access happens (the `open`
lives inside `tail_file`, which runs on the daemon thread), and `main`
unconditionally proceeds to build the figure and run the animation loop.
A failed `open` kills only the daemon thread, which then has enqueued
nothing. -/
def mainFile (fs : String → Option String) (path : String) : MainRun :=
  match tail_file_open fs path with
  | Except.error e =>
    { producerThreadStarted := true, abortedBeforeThreadStart := false,
      renderLoopRuns := true, producerOpen := Except.error e, queueFromProducer := [] }
  | Except.ok content =>
    { producerThreadStarted := true, abortedBeforeThreadStart := false,
      renderLoopRuns := true, producerOpen := Except.ok content,
      queueFromProducer := (replayState content).records }

-- Helper lemmas ------------------------------------------------------------

theorem isEmpty_append_cons {α : Type} (l : List α) (a : α) (m : List α) :
    (l ++ a :: m).isEmpty = false := by
  cases l <;> rfl

/-- Closed form of the drain loop: the three series each grow by the admitted
points, in queue order, and the flag records whether any point was
admitted. -/
theorem drainFold_eq (cfg : Cfg) (recs : List Record) (st : PlotState) (b : Bool) :
    drainFold cfg recs (st, b) =
      ({ st with
          xs := st.xs ++ (recs.filterMap (admitPoint cfg)).map (fun p => p.1),
          ys := st.ys ++ (recs.filterMap (admitPoint cfg)).map (fun p => p.2.1),
          status_codes :=
            st.status_codes ++ (recs.filterMap (admitPoint cfg)).map (fun p => p.2.2) },
        b || !(recs.filterMap (admitPoint cfg)).isEmpty) := by
  induction recs generalizing st b with
  | nil => simp [drainFold]
  | cons r rs ih =>
    cases h : admitPoint cfg r with
    | none => simp [drainFold, h, List.filterMap_cons, ih]
    | some p => simp [drainFold, appendPoint, h, List.filterMap_cons, ih, List.append_assoc]

/-- The render tick never mutates the xs series beyond appending the admitted
points in order. -/
theorem update_xs (cfg : Cfg) (recs : List Record) (st : PlotState) :
    (update cfg recs st).1.xs =
      st.xs ++ (recs.filterMap (admitPoint cfg)).map (fun p => p.1) := by
  simp only [update, drainFold_eq]
  split <;> rfl

/-- The render tick never mutates the ys series beyond appending the admitted
points in order. -/
theorem update_ys (cfg : Cfg) (recs : List Record) (st : PlotState) :
    (update cfg recs st).1.ys =
      st.ys ++ (recs.filterMap (admitPoint cfg)).map (fun p => p.2.1) := by
  simp only [update, drainFold_eq]
  split <;> rfl

/-- Closed form of a render tick on which at least one point is admitted: the
series grow by the admitted points, the line artist receives the full series,
both axis bounds are recomputed from the full buffers, and the title shows
the last drained status. -/
theorem update_of_admitted (cfg : Cfg) (recs : List Record) (st : PlotState)
    (h : recs.filterMap (admitPoint cfg) ≠ []) :
    update cfg recs st =
      ({ xs := st.xs ++ (recs.filterMap (admitPoint cfg)).map (fun p => p.1),
         ys := st.ys ++ (recs.filterMap (admitPoint cfg)).map (fun p => p.2.1),
         status_codes :=
           st.status_codes ++ (recs.filterMap (admitPoint cfg)).map (fun p => p.2.2),
         line_data :=
           some (st.xs ++ (recs.filterMap (admitPoint cfg)).map (fun p => p.1),
                 st.ys ++ (recs.filterMap (admitPoint cfg)).map (fun p => p.2.1)),
         xlim := xBounds (st.xs ++ (recs.filterMap (admitPoint cfg)).map (fun p => p.1)),
         ylim := yBounds (st.ys ++ (recs.filterMap (admitPoint cfg)).map (fun p => p.2.1)),
         title_status :=
           (st.status_codes ++
             (recs.filterMap (admitPoint cfg)).map (fun p => p.2.2)).getLast? },
       true) := by
  simp only [update, drainFold_eq]
  rcases hl : recs.filterMap (admitPoint cfg) with _ | ⟨p0, ps⟩
  · exact absurd hl h
  · simp [isEmpty_append_cons]

/-- Over finite values the Python min fold computes the rational minimum. -/
theorem pyMinFold_finite (q : ℚ) (l : List ℚ) :
    pyMinFold (PyF.finite q) (l.map PyF.finite) = PyF.finite (l.foldl min q) := by
  induction l generalizing q with
  | nil => rfl
  | cons r t ih =>
    rw [List.map_cons, List.foldl_cons,
      show pyMinFold (PyF.finite q) (PyF.finite r :: t.map PyF.finite) =
        pyMinFold (if pyLt (PyF.finite r) (PyF.finite q) then PyF.finite r else PyF.finite q)
          (t.map PyF.finite) from rfl]
    rcases lt_or_le r q with h | h
    · rw [if_pos (by simp [pyLt, decide_eq_true_eq]; exact h), min_eq_right h.le]
      exact ih r
    · rw [if_neg (by simp [pyLt, decide_eq_true_eq]; exact h), min_eq_left h]
      exact ih q

/-- Over finite values the Python max fold computes the rational maximum. -/
theorem pyMaxFold_finite (q : ℚ) (l : List ℚ) :
    pyMaxFold (PyF.finite q) (l.map PyF.finite) = PyF.finite (l.foldl max q) := by
  induction l generalizing q with
  | nil => rfl
  | cons r t ih =>
    rw [List.map_cons, List.foldl_cons,
      show pyMaxFold (PyF.finite q) (PyF.finite r :: t.map PyF.finite) =
        pyMaxFold (if pyLt (PyF.finite q) (PyF.finite r) then PyF.finite r else PyF.finite q)
          (t.map PyF.finite) from rfl]
    rcases lt_or_le q r with h | h
    · rw [if_pos (by simp [pyLt, decide_eq_true_eq]; exact h), max_eq_right h.le]
      exact ih r
    · rw [if_neg (by simp [pyLt, decide_eq_true_eq]; exact h), max_eq_left h]
      exact ih q

theorem foldl_min_le_init (q : ℚ) (l : List ℚ) : l.foldl min q ≤ q := by
  induction l generalizing q with
  | nil => exact le_refl q
  | cons r t ih => exact (ih (min q r)).trans (min_le_left q r)

theorem foldl_min_le_mem (q a : ℚ) (l : List ℚ) (ha : a ∈ l) : l.foldl min q ≤ a := by
  induction l generalizing q with
  | nil => cases ha
  | cons r t ih =>
    rcases List.mem_cons.mp ha with h | h
    · subst h
      exact (foldl_min_le_init (min q a) t).trans (min_le_right q a)
    · exact ih (min q r) h

theorem init_le_foldl_max (q : ℚ) (l : List ℚ) : q ≤ l.foldl max q := by
  induction l generalizing q with
  | nil => exact le_refl q
  | cons r t ih => exact (le_max_left q r).trans (ih (max q r))

theorem mem_le_foldl_max (q a : ℚ) (l : List ℚ) (ha : a ∈ l) : a ≤ l.foldl max q := by
  induction l generalizing q with
  | nil => cases ha
  | cons r t ih =>
    rcases List.mem_cons.mp ha with h | h
    · subst h
      exact (le_max_right q a).trans (init_le_foldl_max (max q a) t)
    · exact ih (max q r) h

theorem foldl_min_all_eq (q : ℚ) (l : List ℚ) (h : ∀ r ∈ l, r = q) : l.foldl min q = q := by
  induction l with
  | nil => rfl
  | cons r t ih =>
    rw [List.foldl_cons, h r (List.mem_cons_self r t), min_self]
    exact ih fun s hs => h s (List.mem_cons_of_mem r hs)

theorem foldl_max_all_eq (q : ℚ) (l : List ℚ) (h : ∀ r ∈ l, r = q) : l.foldl max q = q := by
  induction l with
  | nil => rfl
  | cons r t ih =>
    rw [List.foldl_cons, h r (List.mem_cons_self r t), max_self]
    exact ih fun s hs => h s (List.mem_cons_of_mem r hs)

/-- The fold minimum equals the fold maximum exactly when every element of
the list equals the seed. -/
theorem foldl_min_eq_max_iff (q : ℚ) (l : List ℚ) :
    l.foldl min q = l.foldl max q ↔ ∀ r ∈ l, r = q := by
  constructor
  · intro hmm r hr
    have h1 : l.foldl min q ≤ q := foldl_min_le_init q l
    have h2 : q ≤ l.foldl max q := init_le_foldl_max q l
    have hq : l.foldl min q = q := le_antisymm h1 (hmm ▸ h2)
    have h3 : l.foldl min q ≤ r := foldl_min_le_mem q r l hr
    have h4 : r ≤ l.foldl max q := mem_le_foldl_max q r l hr
    exact le_antisymm (hq ▸ (hmm ▸ h4)) (hq ▸ h3)
  · intro hall
    rw [foldl_min_all_eq q l hall, foldl_max_all_eq q l hall]

/-- Closed form of the Y-bounds computation on a buffer of finite values:
when the minimum equals the maximum the window is widened by `1/10` on each
side, otherwise the ends are exactly the minimum and the maximum. -/
theorem yBounds_finite (q : ℚ) (rest : List ℚ) :
    yBounds ((q :: rest).map PyF.finite) =
      some (if rest.foldl min q = rest.foldl max q
            then (PyF.finite (rest.foldl min q - 1 / 10), PyF.finite (rest.foldl max q + 1 / 10))
            else (PyF.finite (rest.foldl min q), PyF.finite (rest.foldl max q))) := by
  rw [List.map_cons,
    show yBounds (PyF.finite q :: rest.map PyF.finite) =
      (if pyBeq (pyMinFold (PyF.finite q) (rest.map PyF.finite))
            (pyMaxFold (PyF.finite q) (rest.map PyF.finite)) then
        some (pyAddQ (pyMinFold (PyF.finite q) (rest.map PyF.finite)) (-(1 / 10 : ℚ)),
              pyAddQ (pyMaxFold (PyF.finite q) (rest.map PyF.finite)) (1 / 10 : ℚ))
      else
        some (pyMinFold (PyF.finite q) (rest.map PyF.finite),
              pyMaxFold (PyF.finite q) (rest.map PyF.finite))) from rfl,
    pyMinFold_finite, pyMaxFold_finite]
  by_cases h : rest.foldl min q = rest.foldl max q
  · rw [if_pos (by simp [pyBeq, decide_eq_true_eq]; exact h), if_pos h]
    rw [show pyAddQ (PyF.finite (rest.foldl min q)) (-(1 / 10 : ℚ)) =
      PyF.finite (rest.foldl min q + -(1 / 10)) from rfl]
    rw [show pyAddQ (PyF.finite (rest.foldl max q)) (1 / 10 : ℚ) =
      PyF.finite (rest.foldl max q + 1 / 10) from rfl]
    rw [← sub_eq_add_neg]
  · rw [if_neg (by simp [pyBeq, decide_eq_true_eq]; exact h), if_neg h]

theorem pyMinFold_replicate (n : ℕ) (v : PyF) : pyMinFold v (List.replicate n v) = v := by
  induction n with
  | zero => rfl
  | succ m ih =>
    rw [List.replicate_succ,
      show pyMinFold v (v :: List.replicate m v) =
        pyMinFold (if pyLt v v then v else v) (List.replicate m v) from rfl,
      ite_self]
    exact ih

theorem pyMaxFold_replicate (n : ℕ) (v : PyF) : pyMaxFold v (List.replicate n v) = v := by
  induction n with
  | zero => rfl
  | succ m ih =>
    rw [List.replicate_succ,
      show pyMaxFold v (v :: List.replicate m v) =
        pyMaxFold (if pyLt v v then v else v) (List.replicate m v) from rfl,
      ite_self]
    exact ih

/-- The dict built by insertion with overwrite returns the value of the LAST
matching key: the first match found when scanning from the right. -/
theorem dictGet_eq_last_match (ps : Record) (k : String) :
    dictGet ps k = (ps.reverse.find? (fun p => p.1 == k)).map Prod.snd := by
  induction ps using List.reverseRecOn with
  | nil => rfl
  | append_singleton l p ih =>
    rw [dictGet, List.foldl_append, List.foldl_cons, List.foldl_nil, List.reverse_append,
      List.reverse_singleton, List.singleton_append]
    cases h : (p.1 == k) with
    | true =>
      rw [if_pos rfl]
      simp [List.find?_cons, h]
    | false =>
      rw [if_neg (by simp)]
      simp only [List.find?_cons, h]
      exact ih

theorem processLine_blank (st : ProdState) (raw : String) (h : pyStrip raw = "") :
    processLine st raw = st := by
  simp [processLine, h]

theorem foldl_blank (pre : List String) (st : ProdState)
    (hpre : ∀ p ∈ pre, pyStrip p = "") : pre.foldl processLine st = st := by
  induction pre generalizing st with
  | nil => rfl
  | cons l t ih =>
    rw [List.foldl_cons, processLine_blank st l (hpre l (List.mem_cons_self l t))]
    exact ih st fun p hp => hpre p (List.mem_cons_of_mem l hp)

/-- Once the header is set, no later line can change it. -/
theorem processLine_keeps_header (st : ProdState) (raw : String) (hdr : List String)
    (h : st.header = some hdr) : (processLine st raw).header = some hdr := by
  by_cases hb : pyStrip raw = ""
  · rw [processLine_blank st raw hb]
    exact h
  · simp only [processLine, if_neg hb, h]
    by_cases hl : (csvParse (pyStrip raw)).length = hdr.length
    · simp [hl]
    · simp [hl, h]

theorem foldl_keeps_header (lines : List String) (st : ProdState) (hdr : List String)
    (h : st.header = some hdr) : (lines.foldl processLine st).header = some hdr := by
  induction lines generalizing st with
  | nil => exact h
  | cons l t ih =>
    rw [List.foldl_cons]
    exact ih (processLine st l) (processLine_keeps_header st l hdr h)

-- Claim theorems -----------------------------------------------------------

/-- Claim C9 (confirmed): a render tick that finds the queue empty, or that
drains only records all failing the numeric filter, admits nothing, performs
zero mutation of the series buffer, the view window, the line artist and the
title, and reports no redraw: the tick returns the state unchanged with the
redraw flag false. -/
theorem idle_tick_noop (cfg : Cfg) (recs : List Record) (st : PlotState)
    (h : recs.filterMap (admitPoint cfg) = []) :
    update cfg recs st = (st, false) := by
  simp [update, drainFold_eq, h]

/-- Witness for C9 at a concrete input: a single queued record whose y value
does not parse, so the tick admits nothing and is a no-op. -/
theorem idle_tick_noop_witness :
    ([[("x", "1"), ("y", "abc")]] : List Record).filterMap (admitPoint cfg0) = []
    ∧ update cfg0 [[("x", "1"), ("y", "abc")]] emptyState = (emptyState, false) :=
  ⟨by decide, idle_tick_noop cfg0 [[("x", "1"), ("y", "abc")]] emptyState (by decide)⟩

/-- Claim C2 (confirmed): once the header is established, a non-blank line
produces exactly one enqueued record iff its parsed field count equals the
header length; on a mismatch the producer state is completely unchanged, and
in either case the header never changes. -/
theorem arity_filter_iff (hdr : List String) (recs0 : List Record) (raw : String)
    (h : pyStrip raw ≠ "") :
    ((processLine { header := some hdr, records := recs0 } raw).records =
        recs0 ++ [hdr.zip (csvParse (pyStrip raw))] ↔
      (csvParse (pyStrip raw)).length = hdr.length)
    ∧ ((processLine { header := some hdr, records := recs0 } raw).records = recs0 ↔
        (csvParse (pyStrip raw)).length ≠ hdr.length)
    ∧ (processLine { header := some hdr, records := recs0 } raw).header = some hdr := by
  simp only [processLine, if_neg h]
  by_cases hl : (csvParse (pyStrip raw)).length = hdr.length
  · simp [hl]
  · simp [hl]

/-- Witness for C2 at a concrete input: header of length two against a line
with three fields, which is dropped with no state change. -/
theorem arity_filter_iff_witness :
    pyStrip (" 1,2,3 ") ≠ ""
    ∧ ((processLine { header := some ["a", "b"], records := [] } (" 1,2,3 ")).records = [] ↔
        (csvParse (pyStrip (" 1,2,3 "))).length ≠ (["a", "b"] : List String).length) :=
  ⟨by decide, (arity_filter_iff ["a", "b"] [] (" 1,2,3 ") (by decide)).2.1⟩

/-- Claim C8 (confirmed): for any input whose first non-blank line is L, the
header equals the comma-split, whitespace-trimmed tokens of L, regardless of
how many lines follow (the fold over any continuation keeps the header). -/
theorem header_once (pre : List String) (L : String) (rest : List String)
    (hpre : ∀ p ∈ pre, pyStrip p = "") (hL : pyStrip L ≠ "") :
    (stream_lines_from_stdin (pre ++ L :: rest)).header =
      some ((pySplitComma (pyStrip L)).map pyStrip) := by
  rw [stream_lines_from_stdin, List.foldl_append, foldl_blank pre _ hpre, List.foldl_cons]
  have h1 : processLine { header := none, records := [] } L =
      { header := some ((pySplitComma (pyStrip L)).map pyStrip), records := [] } := by
    simp [processLine, hL]
  rw [h1]
  exact foldl_keeps_header rest _ _ rfl

/-- Witness for C8 at a concrete input: a leading blank line, a header line
with padding inside the tokens, and two trailing lines. -/
theorem header_once_witness :
    (∀ p ∈ ([""] : List String), pyStrip p = "")
    ∧ pyStrip ("offset, response-time ,status-code") ≠ ""
    ∧ (stream_lines_from_stdin
        ([""] ++ ("offset, response-time ,status-code") :: ["1,2,3", "zz"])).header =
      some ((pySplitComma (pyStrip ("offset, response-time ,status-code"))).map pyStrip) :=
  ⟨by decide, by decide,
    header_once [""] ("offset, response-time ,status-code") ["1,2,3", "zz"]
      (by decide) (by decide)⟩

/-- Claim C5 counterexample: with duplicate header `a,a` and data row `1,2`,
the constructed record maps the name to `2`, the field at the LAST occurrence
of the duplicated name, not `1` from the first occurrence, because the dict
comprehension overwrites earlier keys. -/
theorem duplicate_header_first_wins_cex :
    processLine { header := some ["a", "a"], records := [] } ("1,2") =
      { header := some ["a", "a"], records := [[("a", "1"), ("a", "2")]] }
    ∧ dictGet [("a", "1"), ("a", "2")] ("a") = some ("2")
    ∧ some ("2") ≠ some ("1") :=
  ⟨by decide, by decide, by decide⟩

/-- Claim C5 (corrected): when the header contains duplicate column names,
looking up such a name in a constructed record yields the field value at the
LAST occurrence of that name in the header: the lookup equals the first
match when scanning the zipped pairs from the right. -/
theorem duplicate_header_last_wins (hdr row : List String) (k : String) :
    dictGet (hdr.zip row) k =
      ((hdr.zip row).reverse.find? (fun p => p.1 == k)).map Prod.snd :=
  dictGet_eq_last_match (hdr.zip row) k

/-- Claim C1 counterexample: the x value "inf" converts to +infinity under
Python float(), which is not a finite number, yet the record IS admitted and
the series buffer gains the point; so admission does not require both values
to parse as FINITE numbers. -/
theorem inf_value_admitted_cex :
    pyFloatParse ("inf") = some PyF.pinf
    ∧ PyF.isFinite PyF.pinf = false
    ∧ admitPoint cfg0 [("x", "inf"), ("y", "1")] = some (PyF.pinf, PyF.finite 1, none)
    ∧ (drainFold cfg0 [[("x", "inf"), ("y", "1")]] (emptyState, false)).1.xs = [PyF.pinf] :=
  ⟨by decide, by decide, by decide, by decide⟩

/-- Claim C1 (corrected): a drained record is admitted iff BOTH configured
column values successfully convert under Python float(); a record with a
failing conversion (missing column, empty string, non-numeric string) is
silently discarded, leaving the buffer unchanged.  Conversion success does
not imply finiteness: the inf/nan spellings are also admitted.  The spec's
test values behave as stated: "12.5" and "1e10" parse, "abc" and "" fail. -/
theorem numeric_filter_float_parse (cfg : Cfg) (rec : Record) (st : PlotState) :
    ((admitPoint cfg rec).isSome =
      ((try_float (dictGet rec cfg.x)).isSome && (try_float (dictGet rec cfg.y)).isSome))
    ∧ drainFold cfg [rec] (st, false) =
        (match admitPoint cfg rec with
         | none => (st, false)
         | some p => (appendPoint st p, true))
    ∧ pyFloatParse ("12.5") = some (PyF.finite (25 / 2))
    ∧ pyFloatParse ("abc") = none
    ∧ pyFloatParse ("") = none
    ∧ pyFloatParse ("1e10") = some (PyF.finite 10000000000) := by
  refine ⟨?_, ?_, by decide, by decide, by decide, by decide⟩
  · rcases hx : try_float (dictGet rec cfg.x) with _ | xf <;>
      rcases hy : try_float (dictGet rec cfg.y) with _ | yf <;>
        simp [admitPoint, hx, hy]
  · rcases hp : admitPoint cfg rec with _ | p <;> simp [drainFold, hp]

/-- Claim C6 (confirmed): points reach the series buffer in exactly the
order their source lines were read: the xs series of the full pipeline is
the list of admitted x values in source order, so whenever the admitted x
values are strictly increasing, the resulting xs sequence is
non-decreasing. -/
theorem fifo_order_preserved (lines : List String) (cfg : Cfg) (qs : List ℚ)
    (hx : (pipelinePoints lines cfg).map (fun p => p.1) = qs.map PyF.finite)
    (hinc : List.Chain' (fun a b : ℚ => a < b) qs) :
    (runPipeline lines cfg).xs = qs.map PyF.finite
    ∧ List.Chain' (fun a b : ℚ => a ≤ b) qs := by
  refine ⟨?_, List.Chain'.imp (fun a b hab => le_of_lt hab) hinc⟩
  unfold runPipeline
  rw [update_xs]
  unfold pipelinePoints at hx
  simpa [emptyState] using hx

/-- Witness for C6 at a concrete input: three lines with strictly increasing
x values, all admitted, end in the buffer in order. -/
theorem fifo_order_preserved_witness :
    (pipelinePoints ["x,y", "1,5", "2,5", "3,5"] cfg0).map (fun p => p.1) =
      ([1, 2, 3] : List ℚ).map PyF.finite
    ∧ List.Chain' (fun a b : ℚ => a < b) [1, 2, 3]
    ∧ (runPipeline ["x,y", "1,5", "2,5", "3,5"] cfg0).xs =
        ([1, 2, 3] : List ℚ).map PyF.finite :=
  ⟨by decide,
    List.chain'_cons.mpr ⟨by decide, List.chain'_cons.mpr ⟨by decide, List.chain'_singleton _⟩⟩,
    (fifo_order_preserved ["x,y", "1,5", "2,5", "3,5"] cfg0 [1, 2, 3]
      (by decide)
      (List.chain'_cons.mpr
        ⟨by decide, List.chain'_cons.mpr ⟨by decide, List.chain'_singleton _⟩⟩)).1⟩

/-- Claim C7 counterexample: the pipeline admits the point (1, nan) (the
string "nan" converts), the tick has admitted one point and all buffered
y-values are trivially equal, yet the recomputed window is (nan, nan):
since nan == nan is false no widening happens, and yMax - yMin is nan, not
the positive height 2 * (1/10) the claim requires. -/
theorem degenerate_y_window_cex :
    (runPipeline ["x,y", "1,nan"] cfg0).ys = [PyF.nan]
    ∧ (runPipeline ["x,y", "1,nan"] cfg0).ylim = some (PyF.nan, PyF.nan)
    ∧ pySub PyF.nan PyF.nan = PyF.nan
    ∧ PyF.nan ≠ PyF.finite (2 * (1 / 10))
    ∧ pyBeq PyF.nan PyF.nan = false :=
  ⟨by decide, by decide, by decide, by decide, by decide⟩

/-- Claim C7 (corrected): restricted to FINITE buffered y-values (the claim
fails for admitted nan or infinite values, see the counterexample): after a
tick into the empty state whose resulting ys buffer is a non-empty list of
finite values, the recomputed y window is widened by 1/10 on each side when
all values are equal (so the height is exactly 2 * (1/10) > 0), and is
exactly (min, max) otherwise. -/
theorem degenerate_y_window_finite (cfg : Cfg) (recs : List Record) (q : ℚ) (rest : List ℚ)
    (hys : (update cfg recs emptyState).1.ys = (q :: rest).map PyF.finite) :
    (update cfg recs emptyState).1.ylim =
      some (if rest.foldl min q = rest.foldl max q
            then (PyF.finite (rest.foldl min q - 1 / 10),
                  PyF.finite (rest.foldl max q + 1 / 10))
            else (PyF.finite (rest.foldl min q), PyF.finite (rest.foldl max q)))
    ∧ ((rest.foldl min q = rest.foldl max q) ↔ ∀ r ∈ rest, r = q)
    ∧ (rest.foldl max q + 1 / 10) - (rest.foldl min q - 1 / 10) =
        (rest.foldl max q - rest.foldl min q) + 2 * (1 / 10)
    ∧ rest.foldl min q ≤ rest.foldl max q := by
  have hpts : recs.filterMap (admitPoint cfg) ≠ [] := by
    intro h0
    have hys2 := update_ys cfg recs emptyState
    rw [hys, h0] at hys2
    simp [emptyState] at hys2
  refine ⟨?_, foldl_min_eq_max_iff q rest, by ring,
    (foldl_min_le_init q rest).trans (init_le_foldl_max q rest)⟩
  have hys3 : emptyState.ys ++ (recs.filterMap (admitPoint cfg)).map (fun p => p.2.1) =
      (q :: rest).map PyF.finite := by
    rw [update_of_admitted cfg recs emptyState hpts] at hys
    exact hys
  rw [update_of_admitted cfg recs emptyState hpts]
  show yBounds (emptyState.ys ++ (recs.filterMap (admitPoint cfg)).map (fun p => p.2.1)) = _
  rw [hys3, yBounds_finite]

/-- Witness for C7 at a concrete input: two points with the same finite y
value 2, giving the widened window (2 - 1/10, 2 + 1/10). -/
theorem degenerate_y_window_finite_witness :
    (update cfg0 [[("x", "1"), ("y", "2")], [("x", "3"), ("y", "2")]] emptyState).1.ys =
      ((2 : ℚ) :: [2]).map PyF.finite
    ∧ (update cfg0 [[("x", "1"), ("y", "2")], [("x", "3"), ("y", "2")]] emptyState).1.ylim =
        some (if ([2] : List ℚ).foldl min 2 = ([2] : List ℚ).foldl max 2
              then (PyF.finite (([2] : List ℚ).foldl min 2 - 1 / 10),
                    PyF.finite (([2] : List ℚ).foldl max 2 + 1 / 10))
              else (PyF.finite (([2] : List ℚ).foldl min 2),
                    PyF.finite (([2] : List ℚ).foldl max 2))) :=
  ⟨by decide,
    (degenerate_y_window_finite cfg0 [[("x", "1"), ("y", "2")], [("x", "3"), ("y", "2")]]
      2 [2] (by decide)).1⟩

/-- Claim C10 (confirmed): the x bounds receive the 1e-6 widening of the
upper end only when the buffer holds exactly one point; with two or more
points all sharing the same x the bounds degenerate to (x, x), while the y
bounds of an all-equal finite buffer are always widened to positive height.
The two concrete runs show a tick of the program doing exactly this. -/
theorem x_bounds_widening_single_only (x q : ℚ) (n : ℕ) :
    xBounds [PyF.finite x] = some (PyF.finite x, PyF.finite (x + 1 / 1000000))
    ∧ xBounds (List.replicate (n + 2) (PyF.finite x)) = some (PyF.finite x, PyF.finite x)
    ∧ yBounds (List.replicate (n + 2) (PyF.finite q)) =
        some (PyF.finite (q - 1 / 10), PyF.finite (q + 1 / 10))
    ∧ x < x + 1 / 1000000
    ∧ q - 1 / 10 < q + 1 / 10
    ∧ (update cfg0 [[("x", "5"), ("y", "7")], [("x", "5"), ("y", "7")]] emptyState).1.xlim =
        some (PyF.finite 5, PyF.finite 5)
    ∧ (update cfg0 [[("x", "5"), ("y", "7")], [("x", "5"), ("y", "7")]] emptyState).1.ylim =
        some (PyF.finite (69 / 10), PyF.finite (71 / 10))
    ∧ (update cfg0 [[("x", "5"), ("y", "7")]] emptyState).1.xlim =
        some (PyF.finite 5, PyF.finite (5000001 / 1000000)) := by
  refine ⟨?_, ?_, ?_, by linarith, by linarith, by decide, by decide, by decide⟩
  · show some (pyMinFold (PyF.finite x) [],
      if ([] : List PyF).isEmpty then pyAddQ (pyMaxFold (PyF.finite x) []) (1 / 1000000 : ℚ)
      else pyMaxFold (PyF.finite x) []) = _
    rfl
  · rw [List.replicate_succ,
      show xBounds (PyF.finite x :: List.replicate (n + 1) (PyF.finite x)) =
        some (pyMinFold (PyF.finite x) (List.replicate (n + 1) (PyF.finite x)),
          if (List.replicate (n + 1) (PyF.finite x)).isEmpty then
            pyAddQ (pyMaxFold (PyF.finite x) (List.replicate (n + 1) (PyF.finite x)))
              (1 / 1000000 : ℚ)
          else pyMaxFold (PyF.finite x) (List.replicate (n + 1) (PyF.finite x))) from rfl,
      pyMinFold_replicate, pyMaxFold_replicate,
      if_neg (by simp [List.replicate_succ])]
  · rw [List.replicate_succ,
      show yBounds (PyF.finite q :: List.replicate (n + 1) (PyF.finite q)) =
        (if pyBeq (pyMinFold (PyF.finite q) (List.replicate (n + 1) (PyF.finite q)))
              (pyMaxFold (PyF.finite q) (List.replicate (n + 1) (PyF.finite q))) then
          some (pyAddQ (pyMinFold (PyF.finite q) (List.replicate (n + 1) (PyF.finite q)))
                  (-(1 / 10 : ℚ)),
                pyAddQ (pyMaxFold (PyF.finite q) (List.replicate (n + 1) (PyF.finite q)))
                  (1 / 10 : ℚ))
        else
          some (pyMinFold (PyF.finite q) (List.replicate (n + 1) (PyF.finite q)),
                pyMaxFold (PyF.finite q) (List.replicate (n + 1) (PyF.finite q)))) from rfl,
      pyMinFold_replicate, pyMaxFold_replicate,
      if_pos (by simp [pyBeq]),
      show pyAddQ (PyF.finite q) (-(1 / 10 : ℚ)) = PyF.finite (q + -(1 / 10)) from rfl,
      show pyAddQ (PyF.finite q) (1 / 10 : ℚ) = PyF.finite (q + 1 / 10) from rfl,
      ← sub_eq_add_neg]

/-- Claim C4 (code_bug): in the Following state, a non-empty unterminated
trailing line IS consumed: at position 8 of the file content `x,y\n1,2\n3,`
the remaining characters `3,` contain no newline, yet the step advances the
cursor to 10 and decodes and enqueues the half-written line as the record
[(x, 3), (y, "")], contradicting the claim that the cursor never advances
past a partial line. -/
theorem follow_consumes_partial_line :
    followStep { header := some ["x", "y"], records := [] } (("x,y\n1,2\n3,").toList) 8 =
      (10, { header := some ["x", "y"], records := [[("x", "3"), ("y", "")]] }, false)
    ∧ (readlineL ((("x,y\n1,2\n3,").toList).drop 8)).contains '\n' = false :=
  ⟨by decide, by decide⟩

/-- Claim C3 counterexample: with a filesystem lacking the configured path,
main still starts the producer thread and proceeds to run the render loop;
the run does not abort before any thread starts. -/
theorem missing_file_no_abort_cex :
    (mainFile (fun _ => none) ("hey.csv")).producerThreadStarted = true
    ∧ (mainFile (fun _ => none) ("hey.csv")).abortedBeforeThreadStart = false
    ∧ (mainFile (fun _ => none) ("hey.csv")).renderLoopRuns = true
    ∧ (mainFile (fun _ => none) ("hey.csv")).producerOpen =
        Except.error ("FileNotFoundError") :=
  ⟨rfl, rfl, rfl, rfl⟩

/-- Claim C3 (corrected): when the configured file is missing at start, main
does NOT abort: the producer thread is started regardless and the render loop
runs.  The failed open kills only the producer, which has enqueued nothing,
so the consumer state stays empty: a tick on the empty queue returns the
empty state unchanged. -/
theorem missing_file_thread_starts (fs : String → Option String) (path : String) (cfg : Cfg)
    (h : fs path = none) :
    (mainFile fs path).producerThreadStarted = true
    ∧ (mainFile fs path).abortedBeforeThreadStart = false
    ∧ (mainFile fs path).renderLoopRuns = true
    ∧ (mainFile fs path).producerOpen = Except.error ("FileNotFoundError")
    ∧ (mainFile fs path).queueFromProducer = []
    ∧ update cfg (mainFile fs path).queueFromProducer emptyState = (emptyState, false) := by
  simp [mainFile, tail_file_open, h, update, drainFold_eq]

/-- Witness for C3 at a concrete input: the empty filesystem misses every
path. -/
theorem missing_file_thread_starts_witness :
    ((fun _ => none) : String → Option String) ("hey.csv") = none
    ∧ (mainFile (fun _ => none) ("hey.csv")).queueFromProducer = []
    ∧ update cfg0 (mainFile (fun _ => none) ("hey.csv")).queueFromProducer emptyState =
        (emptyState, false) :=
  ⟨rfl, (missing_file_thread_starts (fun _ => none) ("hey.csv") cfg0 rfl).2.2.2.2.1,
    (missing_file_thread_starts (fun _ => none) ("hey.csv") cfg0 rfl).2.2.2.2.2⟩

end HeyPlot
